import Mathlib

/-!
Verification of the pcapng block decoder (src/lib.rs) against its
specification.

Embedding conventions:
* A byte stream (`Reader` / `BufReader` over in-memory bytes) is a
  `List Nat`; every read primitive takes the stream and returns the
  value together with the remaining stream, so stream state is passed
  explicitly.
* Machine integers are `Nat` with explicit wrap-around (`% 2 ^ 32`,
  `% 2 ^ 64`) exactly where the Rust arithmetic can overflow
  (this is pre-1.0 Rust, where integer overflow wrapped silently).
* Fallible Rust code returning `Result` is modelled by `Res`; a failed
  `assert!` (a process abort, not a returned value) is the separate
  outcome `Res.abort` carrying the assertion message.  `Res.outOfFuel`
  is an artifact of the fuel-based option loop; the entry points supply
  more fuel than the loop can ever use, since every iteration consumes
  at least four bytes of stream.
* A Rust `String` is modelled as its UTF-8 byte sequence (`List Nat`);
  `String::from_utf8` is modelled by the standard UTF-8 validity check
  `validUtf8` on those bytes.
-/

/-- Model of `FormatError` (src/lib.rs lines 17-21).  Rust's
`Utf8Error` payload (an error-position record from the standard
library) carries no information this development needs, so the variant
is modelled as a bare constructor. -/
inductive FormatError where
  | unknownOption : FormatError
  | utf8Error : FormatError
deriving DecidableEq, Repr

/-- Model of `Error` (src/lib.rs lines 11-15): either a propagated
I/O failure (short read / end of stream) or a format failure. -/
inductive Error where
  | ioError : Error
  | formatError : FormatError → Error
deriving DecidableEq, Repr

/-- Outcome of running a piece of the decoder: a returned value, a
returned error value, an assertion abort (`assert!` / panic, which in
Rust halts the process instead of returning), or fuel exhaustion (an
embedding artifact, unreachable with the fuel the entry points use). -/
inductive Res (α : Type) where
  | ok : α → Res α
  | err : Error → Res α
  | abort : String → Res α
  | outOfFuel : Res α
deriving DecidableEq, Repr

/-- Sequencing of decoder steps: propagate errors, aborts and fuel
exhaustion, continue on success (the model of Rust `try!`). -/
def Res.bind {α β : Type} : Res α → (α → Res β) → Res β
  | .ok a, f => f a
  | .err e, _ => .err e
  | .abort m, _ => .abort m
  | .outOfFuel, _ => .outOfFuel

/-- Model of `Reader::read_byte`: one byte from the stream. -/
def read_byte : List Nat → Res (Nat × List Nat)
  | b :: s => .ok (b, s)
  | [] => .err .ioError

/-- Model of `Reader::read_exact(n)`: exactly `n` bytes from the
stream, or an end-of-file I/O error when fewer are available. -/
def read_exact (n : Nat) (s : List Nat) : Res (List Nat × List Nat) :=
  if n ≤ s.length then .ok (s.take n, s.drop n) else .err .ioError

/-- Model of `Reader::read_le_u16`: two bytes, little-endian. -/
def read_le_u16 : List Nat → Res (Nat × List Nat)
  | b0 :: b1 :: s => .ok (b0 + 256 * b1, s)
  | _ => .err .ioError

/-- Model of `Reader::read_le_u32`: four bytes, little-endian. -/
def read_le_u32 : List Nat → Res (Nat × List Nat)
  | b0 :: b1 :: b2 :: b3 :: s =>
      .ok (b0 + 256 * b1 + 65536 * b2 + 16777216 * b3, s)
  | _ => .err .ioError

/-- Model of `Reader::read_le_u64`: eight bytes, little-endian. -/
def read_le_u64 : List Nat → Res (Nat × List Nat)
  | b0 :: b1 :: b2 :: b3 :: b4 :: b5 :: b6 :: b7 :: s =>
      .ok (b0 + 256 * b1 + 65536 * b2 + 16777216 * b3
            + 4294967296 * b4 + 1099511627776 * b5
            + 281474976710656 * b6 + 72057594037927936 * b7, s)
  | _ => .err .ioError

/-- Little-endian value of a byte list (helper for `read_le_uint_n`). -/
def le_val : List Nat → Nat
  | [] => 0
  | b :: bs => b + 256 * le_val bs

/-- Model of `Reader::read_le_uint_n(n)`: `n` bytes, little-endian. -/
def read_le_uint_n (n : Nat) (s : List Nat) : Res (Nat × List Nat) :=
  match read_exact n s with
  | .ok (bs, s₁) => .ok (le_val bs, s₁)
  | .err e => .err e
  | .abort m => .abort m
  | .outOfFuel => .outOfFuel

/-- Model of `dword_aligned` (src/lib.rs lines 214-217):
`(n + 3) & !3` on `uint` (64-bit), with the addition wrapping modulo
`2 ^ 64` as pre-1.0 Rust integer arithmetic did. -/
def dword_aligned (n : Nat) : Nat :=
  ((n + 3) % 2 ^ 64) &&& (2 ^ 64 - 4)

/-- Model of `read_block` (src/lib.rs lines 219-231).  Reads the block
type and total length, computes `data_len = total_len - 12` in
wrapping `u32` arithmetic, reads the dword-aligned payload, truncates
it to `data_len`, then reads the trailing length and `assert!`s that
it equals `total_len` (an abort, not a returned error, on mismatch).
Returns `((block_type, data), remaining stream)`. -/
def read_block (s : List Nat) : Res ((Nat × List Nat) × List Nat) :=
  (read_le_u32 s).bind fun (block_type, s) =>
  (read_le_u32 s).bind fun (total_len, s) =>
  (read_exact (dword_aligned ((total_len + 2 ^ 32 - 12) % 2 ^ 32)) s).bind
    fun (data, s) =>
  (read_le_u32 s).bind fun (trailing_len, s) =>
  if total_len = trailing_len then
    .ok ((block_type, data.take ((total_len + 2 ^ 32 - 12) % 2 ^ 32)), s)
  else .abort "assertion failed"

/-- Model of `read_option` (src/lib.rs lines 233-241): a 16-bit code,
a 16-bit length, then `dword_aligned len` bytes of value truncated to
`len` logical bytes. -/
def read_option (s : List Nat) : Res ((Nat × List Nat) × List Nat) :=
  (read_le_u16 s).bind fun (code, s) =>
  (read_le_u16 s).bind fun (len, s) =>
  (read_exact (dword_aligned len) s).bind fun (data, s) =>
  .ok ((code, data.take len), s)

/-- Model of the UTF-8 validity check performed by Rust's
`String::from_utf8` (standard RFC 3629 validation: no overlong forms,
no surrogates, code points at most U+10FFFF). -/
def validUtf8 : List Nat → Bool
  | [] => true
  | b :: s =>
    if b < 0x80 then validUtf8 s
    else if 0xC2 ≤ b ∧ b ≤ 0xDF then
      match s with
      | c1 :: s₁ => (0x80 ≤ c1 && c1 ≤ 0xBF) && validUtf8 s₁
      | [] => false
    else if b = 0xE0 then
      match s with
      | c1 :: c2 :: s₁ =>
          (0xA0 ≤ c1 && c1 ≤ 0xBF) && (0x80 ≤ c2 && c2 ≤ 0xBF) && validUtf8 s₁
      | _ => false
    else if (0xE1 ≤ b ∧ b ≤ 0xEC) ∨ b = 0xEE ∨ b = 0xEF then
      match s with
      | c1 :: c2 :: s₁ =>
          (0x80 ≤ c1 && c1 ≤ 0xBF) && (0x80 ≤ c2 && c2 ≤ 0xBF) && validUtf8 s₁
      | _ => false
    else if b = 0xED then
      match s with
      | c1 :: c2 :: s₁ =>
          (0x80 ≤ c1 && c1 ≤ 0x9F) && (0x80 ≤ c2 && c2 ≤ 0xBF) && validUtf8 s₁
      | _ => false
    else if b = 0xF0 then
      match s with
      | c1 :: c2 :: c3 :: s₁ =>
          (0x90 ≤ c1 && c1 ≤ 0xBF) && (0x80 ≤ c2 && c2 ≤ 0xBF)
            && (0x80 ≤ c3 && c3 ≤ 0xBF) && validUtf8 s₁
      | _ => false
    else if 0xF1 ≤ b ∧ b ≤ 0xF3 then
      match s with
      | c1 :: c2 :: c3 :: s₁ =>
          (0x80 ≤ c1 && c1 ≤ 0xBF) && (0x80 ≤ c2 && c2 ≤ 0xBF)
            && (0x80 ≤ c3 && c3 ≤ 0xBF) && validUtf8 s₁
      | _ => false
    else if b = 0xF4 then
      match s with
      | c1 :: c2 :: c3 :: s₁ =>
          (0x80 ≤ c1 && c1 ≤ 0x8F) && (0x80 ≤ c2 && c2 ≤ 0xBF)
            && (0x80 ≤ c3 && c3 ≤ 0xBF) && validUtf8 s₁
      | _ => false
    else false

/-- Model of `SectionHeaderOption` (src/lib.rs lines 65-78); string
payloads are kept as their UTF-8 bytes. -/
inductive SectionHeaderOption where
  | comment : List Nat → SectionHeaderOption
  | hardware : List Nat → SectionHeaderOption
  | os : List Nat → SectionHeaderOption
  | userApplication : List Nat → SectionHeaderOption
deriving DecidableEq, Repr

/-- Model of `SectionHeaderBlock` (src/lib.rs lines 48-63). -/
structure SectionHeaderBlock where
  magic : Nat
  major_version : Nat
  minor_version : Nat
  section_length : Nat
  options : List SectionHeaderOption
deriving DecidableEq, Repr

/-- Placeholder model of `std::io::net::ip::IpAddr`; the decoder never
constructs a value of this type (the `Ipv6Addr` option is declared in
the data model but has no decoding arm). -/
inductive IpAddr where
  | v4 : Nat → IpAddr
  | v6 : List Nat → IpAddr
deriving DecidableEq, Repr

/-- Model of `InterfaceDescriptionOption` (src/lib.rs lines 92-149). -/
inductive InterfaceDescriptionOption where
  | comment : List Nat → InterfaceDescriptionOption
  | name : List Nat → InterfaceDescriptionOption
  | description : List Nat → InterfaceDescriptionOption
  | ipv4Addr : Nat → Nat → InterfaceDescriptionOption
  | ipv6Addr : IpAddr → Nat → InterfaceDescriptionOption
  | macAddr : Nat → InterfaceDescriptionOption
  | euiAddr : Nat → InterfaceDescriptionOption
  | speed : Nat → InterfaceDescriptionOption
  | tsResolution : Nat → InterfaceDescriptionOption
  | timezone : Nat → InterfaceDescriptionOption
  | filter : Nat → List Nat → InterfaceDescriptionOption
  | os : List Nat → InterfaceDescriptionOption
  | fcsLen : Nat → InterfaceDescriptionOption
  | tsOffset : Nat → InterfaceDescriptionOption
deriving DecidableEq, Repr

/-- Model of `InterfaceDescriptionBlock` (src/lib.rs lines 81-90). -/
structure InterfaceDescriptionBlock where
  link_type : Nat
  snap_len : Nat
  options : List InterfaceDescriptionOption
deriving DecidableEq, Repr

/-- Model of `InterfaceStatisticsOption` (src/lib.rs lines 160-187). -/
inductive InterfaceStatisticsOption where
  | comment : List Nat → InterfaceStatisticsOption
  | startTime : Nat → InterfaceStatisticsOption
  | endTime : Nat → InterfaceStatisticsOption
  | received : Nat → InterfaceStatisticsOption
  | dropped : Nat → InterfaceStatisticsOption
  | filterAccepted : Nat → InterfaceStatisticsOption
  | osDropped : Nat → InterfaceStatisticsOption
  | delivered : Nat → InterfaceStatisticsOption
deriving DecidableEq, Repr

/-- Model of `InterfaceStatisticsBlock` (src/lib.rs lines 152-158). -/
structure InterfaceStatisticsBlock where
  interface_id : Nat
  timestamp : Nat
  options : List InterfaceStatisticsOption
deriving DecidableEq, Repr

/-- Model of `EnhancedPacketBlockOption` (src/lib.rs lines 204-212). -/
inductive EnhancedPacketBlockOption where
  | comment : List Nat → EnhancedPacketBlockOption
  | flags : Nat → EnhancedPacketBlockOption
  | hash : EnhancedPacketBlockOption
  | dropCount : Nat → EnhancedPacketBlockOption
deriving DecidableEq, Repr

/-- Model of `EnhancedPacketBlock` (src/lib.rs lines 189-202). -/
structure EnhancedPacketBlock where
  interface_id : Nat
  timestamp : Nat
  captured_len : Nat
  len : Nat
  data : List Nat
  options : List EnhancedPacketBlockOption
deriving DecidableEq, Repr

/-- Model of `Block` (src/lib.rs lines 41-46). -/
inductive Block where
  | sectionHeader : SectionHeaderBlock → Block
  | interfaceDescription : InterfaceDescriptionBlock → Block
  | interfaceStatistics : InterfaceStatisticsBlock → Block
  | enhancedPacket : EnhancedPacketBlock → Block
deriving DecidableEq, Repr

/-- The Section Header option dispatch: the match arms of
`SectionHeaderBlock::read` for one `(code, data)` pair with nonzero
code (src/lib.rs lines 261-277): codes 1-4 are string options decoded
by `String::from_utf8`, anything else is an unknown-option format
error. -/
def shbParseOption (code : Nat) (data : List Nat) : Res SectionHeaderOption :=
  if 1 ≤ code ∧ code ≤ 4 then
    if validUtf8 data then
      .ok (if code = 1 then .comment data
        else if code = 2 then .hardware data
        else if code = 3 then .os data
        else .userApplication data)
    else .err (.formatError .utf8Error)
  else .err (.formatError .unknownOption)

/-- The option loop of `SectionHeaderBlock::read` (src/lib.rs lines
256-281), with explicit fuel: read one option; code 0 ends the loop
without emitting anything; otherwise dispatch and accumulate.  Every
iteration consumes at least 4 bytes of stream, so fuel exceeding the
stream length can never run out. -/
def shbReadOptions : Nat → List Nat → List SectionHeaderOption →
    Res (List SectionHeaderOption)
  | 0, _, _ => .outOfFuel
  | fuel + 1, s, acc =>
    match read_option s with
    | .ok ((code, data), s₁) =>
      if code = 0 then .ok acc
      else
        match shbParseOption code data with
        | .ok opt => shbReadOptions fuel s₁ (acc ++ [opt])
        | .err e => .err e
        | .abort m => .abort m
        | .outOfFuel => .outOfFuel
    | .err e => .err e
    | .abort m => .abort m
    | .outOfFuel => .outOfFuel

/-- Model of `SectionHeaderBlock::read` (src/lib.rs lines 244-292):
reads magic and `assert!`s it equals `0x1A2B3C4D` (message
"unsupported endianness"; an abort, not a returned error), then major
and minor version, section length, and — when the stream is not at
end-of-file — the option chain. -/
def SectionHeaderBlock.read (s : List Nat) : Res SectionHeaderBlock :=
  (read_le_u32 s).bind fun (magic, s) =>
  if magic = 0x1A2B3C4D then
    (read_le_u16 s).bind fun (major_version, s) =>
    (read_le_u16 s).bind fun (minor_version, s) =>
    (read_le_u64 s).bind fun (section_length, s) =>
    (if s = [] then .ok [] else shbReadOptions (s.length + 1) s []).bind
      fun options =>
    .ok { magic := magic, major_version := major_version,
          minor_version := minor_version, section_length := section_length,
          options := options }
  else .abort "unsupported endianness"

/-- The Interface Description option dispatch: the match arms of
`InterfaceDescriptionBlock::read` for one `(code, data)` pair with
nonzero code (src/lib.rs lines 309-334): codes 1-3 and 12 are string
options, 4 is IPv4 address and mask (two little-endian `u32`s from the
value), 6 is a 6-byte little-endian MAC address, 9 is a one-byte
timestamp resolution; anything else is an unknown-option error. -/
def idbParseOption (code : Nat) (data : List Nat) :
    Res InterfaceDescriptionOption :=
  if (1 ≤ code ∧ code ≤ 3) ∨ code = 12 then
    if validUtf8 data then
      .ok (if code = 1 then .comment data
        else if code = 2 then .name data
        else if code = 3 then .description data
        else .os data)
    else .err (.formatError .utf8Error)
  else if code = 4 then
    (read_le_u32 data).bind fun (ip, d) =>
    (read_le_u32 d).bind fun (mask, _) =>
    .ok (.ipv4Addr ip mask)
  else if code = 6 then
    (read_le_uint_n 6 data).bind fun (v, _) =>
    .ok (.macAddr v)
  else if code = 9 then
    (read_byte data).bind fun (b, _) =>
    .ok (.tsResolution b)
  else .err (.formatError .unknownOption)

/-- The option loop of `InterfaceDescriptionBlock::read` (src/lib.rs
lines 302-338), with explicit fuel (same shape as the Section Header
loop). -/
def idbReadOptions : Nat → List Nat → List InterfaceDescriptionOption →
    Res (List InterfaceDescriptionOption)
  | 0, _, _ => .outOfFuel
  | fuel + 1, s, acc =>
    match read_option s with
    | .ok ((code, data), s₁) =>
      if code = 0 then .ok acc
      else
        match idbParseOption code data with
        | .ok opt => idbReadOptions fuel s₁ (acc ++ [opt])
        | .err e => .err e
        | .abort m => .abort m
        | .outOfFuel => .outOfFuel
    | .err e => .err e
    | .abort m => .abort m
    | .outOfFuel => .outOfFuel

/-- Model of `InterfaceDescriptionBlock::read` (src/lib.rs lines
295-346): link type, a consumed-but-unused 2-byte reserved field,
snap length, then — when not at end-of-file — the option chain. -/
def InterfaceDescriptionBlock.read (s : List Nat) :
    Res InterfaceDescriptionBlock :=
  (read_le_u16 s).bind fun (link_type, s) =>
  (read_le_u16 s).bind fun (_reserved, s) =>
  (read_le_u32 s).bind fun (snap_len, s) =>
  (if s = [] then .ok [] else idbReadOptions (s.length + 1) s []).bind
    fun options =>
  .ok { link_type := link_type, snap_len := snap_len, options := options }

/-- Little-endian two-byte encoding of a value (test-input builder). -/
def u16le (v : Nat) : List Nat := [v % 256, v / 256 % 256]

/-- Little-endian four-byte encoding of a value (test-input builder). -/
def u32le (v : Nat) : List Nat :=
  [v % 256, v / 256 % 256, v / 65536 % 256, v / 16777216 % 256]

/-- Little-endian eight-byte encoding of a value (test-input builder). -/
def u64le (v : Nat) : List Nat :=
  [v % 256, v / 256 % 256, v / 65536 % 256, v / 16777216 % 256,
   v / 4294967296 % 256, v / 1099511627776 % 256,
   v / 281474976710656 % 256, v / 72057594037927936 % 256]

/-- An option record as laid out on the wire: a code, a declared
length, and the `dword_aligned len` wire bytes of its value (logical
value plus padding). -/
structure OptRec where
  code : Nat
  len : Nat
  wire : List Nat
deriving DecidableEq, Repr

/-- Wire bytes of one option record. -/
def encRec (q : OptRec) : List Nat := u16le q.code ++ u16le q.len ++ q.wire

/-- Wire bytes of a sequence of option records. -/
def encRecs : List OptRec → List Nat
  | [] => []
  | q :: qs => encRec q ++ encRecs qs

/-- A well-formed option record: 16-bit code and length, and exactly
the padded number of wire bytes. -/
def WfRec (q : OptRec) : Prop :=
  q.code < 2 ^ 16 ∧ q.len < 2 ^ 16 ∧ q.wire.length = dword_aligned q.len

/-- A record the Section Header option dispatch accepts. -/
def GoodSHRec (q : OptRec) : Prop :=
  WfRec q ∧ q.code ≠ 0 ∧
    ∃ o, shbParseOption q.code (q.wire.take q.len) = Res.ok o

/-- A record the Interface Description option dispatch accepts. -/
def GoodIDRec (q : OptRec) : Prop :=
  WfRec q ∧ q.code ≠ 0 ∧
    ∃ o, idbParseOption q.code (q.wire.take q.len) = Res.ok o

/-- Specification-side characterization of a decodable Section Header
option chain (spec section 4.3): a sequence of records whose codes are
nonzero and whose payloads dispatch successfully, ended by a code-0
terminator record that is not emitted; the options are exactly the
dispatched values of the records before the terminator, in order. -/
inductive SHChain : List Nat → List SectionHeaderOption → Prop where
  | term (b0 b1 b2 b3 : Nat) (w post : List Nat) :
      b0 + 256 * b1 = 0 →
      w.length = dword_aligned (b2 + 256 * b3) →
      SHChain (b0 :: b1 :: b2 :: b3 :: (w ++ post)) []
  | step (b0 b1 b2 b3 : Nat) (w rest : List Nat)
      (opt : SectionHeaderOption) (opts : List SectionHeaderOption) :
      b0 + 256 * b1 ≠ 0 →
      w.length = dword_aligned (b2 + 256 * b3) →
      shbParseOption (b0 + 256 * b1) (w.take (b2 + 256 * b3)) = Res.ok opt →
      SHChain rest opts →
      SHChain (b0 :: b1 :: b2 :: b3 :: (w ++ rest)) (opt :: opts)

/-- Masking a 64-bit value with `!3` clears its two low bits. -/
theorem land_mask64 (x : Nat) (hx : x < 2 ^ 64) :
    x &&& (2 ^ 64 - 4) = 4 * (x / 4) := by
  have hmask : (2 : Nat) ^ 64 - 4 = (2 ^ 62 - 1) <<< 2 := by
    rw [Nat.shiftLeft_eq]
    norm_num
  have hrhs : 4 * (x / 4) = (x >>> 2) <<< 2 := by
    rw [Nat.shiftRight_eq_div_pow, Nat.shiftLeft_eq]
    ring_nf
  rw [hmask, hrhs]
  apply Nat.eq_of_testBit_eq
  intro i
  rw [Nat.testBit_land, Nat.testBit_shiftLeft, Nat.testBit_shiftLeft,
    Nat.testBit_shiftRight, Nat.testBit_two_pow_sub_one]
  by_cases h2 : 2 ≤ i
  · by_cases h64 : i < 64
    · have he : 2 + (i - 2) = i := by omega
      simp [h2, he, show i - 2 < 62 by omega]
    · have hbit : x.testBit i = false :=
        Nat.testBit_lt_two_pow
          (lt_of_lt_of_le hx (Nat.pow_le_pow_right (by norm_num) (by omega)))
      have hbit2 : x.testBit (2 + (i - 2)) = false := by
        rw [show 2 + (i - 2) = i by omega]
        exact hbit
      simp [hbit, hbit2]
  · simp [h2]

/-- On inputs where the addition does not wrap, `dword_aligned n` is
the arithmetic rounding `4 * ((n + 3) / 4)`. -/
theorem dword_aligned_eq (n : Nat) (h : n + 3 < 2 ^ 64) :
    dword_aligned n = 4 * ((n + 3) / 4) := by
  rw [dword_aligned, Nat.mod_eq_of_lt h]
  exact land_mask64 _ h

/-- The padded length is at least the declared length (no wrap). -/
theorem dword_aligned_ge (n : Nat) (h : n + 3 < 2 ^ 64) :
    n ≤ dword_aligned n := by
  rw [dword_aligned_eq n h]
  omega

/-- Decoding an encoded 16-bit value recovers it. -/
theorem read_le_u16_enc (v : Nat) (hv : v < 2 ^ 16) (s : List Nat) :
    read_le_u16 (u16le v ++ s) = .ok (v, s) := by
  simp only [u16le, List.cons_append, List.nil_append, read_le_u16]
  congr 2
  omega

/-- Decoding an encoded 32-bit value recovers it. -/
theorem read_le_u32_enc (v : Nat) (hv : v < 2 ^ 32) (s : List Nat) :
    read_le_u32 (u32le v ++ s) = .ok (v, s) := by
  simp only [u32le, List.cons_append, List.nil_append, read_le_u32]
  congr 2
  omega

/-- Decoding an encoded 64-bit value recovers it. -/
theorem read_le_u64_enc (v : Nat) (hv : v < 2 ^ 64) (s : List Nat) :
    read_le_u64 (u64le v ++ s) = .ok (v, s) := by
  simp only [u64le, List.cons_append, List.nil_append, read_le_u64]
  congr 2
  omega

/-- Reading exactly the length of a prefix consumes that prefix. -/
theorem read_exact_prefix (w s : List Nat) :
    read_exact w.length (w ++ s) = .ok (w, s) := by
  simp [read_exact, List.take_left, List.drop_left]

/-- Reading more bytes than remain in the stream is an I/O error. -/
theorem read_exact_short (n : Nat) (s : List Nat) (h : s.length < n) :
    read_exact n s = .err .ioError := by
  simp [read_exact]
  omega

/-- A successful 32-bit read consumes exactly four bytes. -/
theorem read_le_u32_ok_drop {s : List Nat} {v : Nat} {s₁ : List Nat}
    (h : read_le_u32 s = .ok (v, s₁)) : s₁ = s.drop 4 := by
  match s with
  | [] | [_] | [_, _] | [_, _, _] => simp [read_le_u32] at h
  | _ :: _ :: _ :: _ :: t =>
    simp [read_le_u32] at h
    simp [h.2]

/-- A successful 16-bit read consumes exactly two bytes. -/
theorem read_le_u16_ok_drop {s : List Nat} {v : Nat} {s₁ : List Nat}
    (h : read_le_u16 s = .ok (v, s₁)) : s₁ = s.drop 2 := by
  match s with
  | [] | [_] => simp [read_le_u16] at h
  | _ :: _ :: t =>
    simp [read_le_u16] at h
    simp [h.2]

/-- A successful 64-bit read consumes exactly eight bytes. -/
theorem read_le_u64_ok_drop {s : List Nat} {v : Nat} {s₁ : List Nat}
    (h : read_le_u64 s = .ok (v, s₁)) : s₁ = s.drop 8 := by
  match s with
  | [] | [_] | [_, _] | [_, _, _] | [_, _, _, _] | [_, _, _, _, _]
  | [_, _, _, _, _, _] | [_, _, _, _, _, _, _] => simp [read_le_u64] at h
  | _ :: _ :: _ :: _ :: _ :: _ :: _ :: _ :: t =>
    simp [read_le_u64] at h
    simp [h.2]

/-- Inversion of a successful exact read: the bytes returned are a
prefix of the declared size and the rest of the stream follows them. -/
theorem read_exact_ok {n : Nat} {s bs s₁ : List Nat}
    (h : read_exact n s = .ok (bs, s₁)) :
    bs.length = n ∧ s = bs ++ s₁ := by
  rw [read_exact] at h
  split at h
  · simp only [Res.ok.injEq, Prod.mk.injEq] at h
    obtain ⟨h1, h2⟩ := h
    subst h1
    subst h2
    refine ⟨?_, (List.take_append_drop n s).symm⟩
    simp
    omega
  · simp at h

/-- Inversion of a successful option read: the stream starts with a
four-byte header followed by the padded value, the code and value are
decoded from those bytes, and the remaining stream follows. -/
theorem read_option_ok_inv {s : List Nat} {c : Nat} {data s₁ : List Nat}
    (h : read_option s = .ok ((c, data), s₁)) :
    ∃ b0 b1 b2 b3 w, s = b0 :: b1 :: b2 :: b3 :: (w ++ s₁)
      ∧ c = b0 + 256 * b1
      ∧ w.length = dword_aligned (b2 + 256 * b3)
      ∧ data = w.take (b2 + 256 * b3) := by
  match s with
  | [] | [_] => simp [read_option, read_le_u16, Res.bind] at h
  | [b0, b1] | [b0, b1, b2] => simp [read_option, read_le_u16, Res.bind] at h
  | b0 :: b1 :: b2 :: b3 :: t =>
    rw [read_option] at h
    simp only [read_le_u16, Res.bind] at h
    cases hre : read_exact (dword_aligned (b2 + 256 * b3)) t with
    | ok p =>
      obtain ⟨bs, s₂⟩ := p
      rw [hre] at h
      simp only [Res.bind, Res.ok.injEq, Prod.mk.injEq] at h
      obtain ⟨⟨hc, hd⟩, hs⟩ := h
      obtain ⟨hlen, happ⟩ := read_exact_ok hre
      subst hs
      exact ⟨b0, b1, b2, b3, bs, by rw [happ], hc.symm, hlen, hd.symm⟩
    | err e => rw [hre] at h; simp [Res.bind] at h
    | abort m => rw [hre] at h; simp [Res.bind] at h
    | outOfFuel => rw [hre] at h; simp [Res.bind] at h

/-- Reading one option from a stream that starts with a well-formed
encoded record yields its code and truncated value and consumes
exactly the record's bytes. -/
theorem read_option_encRec (q : OptRec) (hq : WfRec q) (s : List Nat) :
    read_option (encRec q ++ s) = .ok ((q.code, q.wire.take q.len), s) := by
  obtain ⟨hc, hl, hw⟩ := hq
  rw [encRec]
  simp only [List.append_assoc]
  rw [read_option, read_le_u16_enc q.code hc]
  simp only [Res.bind]
  rw [read_le_u16_enc q.len hl]
  simp only [Res.bind]
  rw [← hw, read_exact_prefix]

/-- Length of one encoded record. -/
theorem encRec_length (q : OptRec) : (encRec q).length = 4 + q.wire.length := by
  simp [encRec, u16le]
  omega

/-- An encoded record sequence has at least as many bytes as records. -/
theorem encRecs_length_ge (qs : List OptRec) :
    qs.length ≤ (encRecs qs).length := by
  induction qs with
  | nil => simp [encRecs]
  | cons q qs ih =>
    rw [encRecs]
    simp only [List.length_append, List.length_cons, encRec_length]
    omega

/-- One iteration of the Section Header option loop over an accepted
record consumes the record and accumulates its decoded option. -/
theorem shbReadOptions_step (q : OptRec) (opt : SectionHeaderOption)
    (hq : WfRec q) (hnz : q.code ≠ 0)
    (hp : shbParseOption q.code (q.wire.take q.len) = .ok opt)
    (fuel : Nat) (s : List Nat) (acc : List SectionHeaderOption) :
    shbReadOptions (fuel + 1) (encRec q ++ s) acc
      = shbReadOptions fuel s (acc ++ [opt]) := by
  rw [shbReadOptions, read_option_encRec q hq]
  simp only [if_neg hnz, hp]

/-- One iteration of the Interface Description option loop over an
accepted record consumes the record and accumulates its option. -/
theorem idbReadOptions_step (q : OptRec) (opt : InterfaceDescriptionOption)
    (hq : WfRec q) (hnz : q.code ≠ 0)
    (hp : idbParseOption q.code (q.wire.take q.len) = .ok opt)
    (fuel : Nat) (s : List Nat) (acc : List InterfaceDescriptionOption) :
    idbReadOptions (fuel + 1) (encRec q ++ s) acc
      = idbReadOptions fuel s (acc ++ [opt]) := by
  rw [idbReadOptions, read_option_encRec q hq]
  simp only [if_neg hnz, hp]

/-- Traversing a sequence of accepted records advances the Section
Header option loop past their encoding, accumulating their options. -/
theorem shbReadOptions_chain (qs : List OptRec) :
    ∀ (fuel : Nat) (s : List Nat) (acc : List SectionHeaderOption),
      (∀ q ∈ qs, GoodSHRec q) → qs.length ≤ fuel →
      ∃ opts, shbReadOptions fuel (encRecs qs ++ s) acc
        = shbReadOptions (fuel - qs.length) s (acc ++ opts) := by
  induction qs with
  | nil =>
    intro fuel s acc _ _
    exact ⟨[], by simp [encRecs]⟩
  | cons q qs ih =>
    intro fuel s acc hg hf
    have hgq := hg q (by simp)
    rw [GoodSHRec] at hgq
    obtain ⟨hwf, hnz, opt, hp⟩ := hgq
    obtain ⟨f, rfl⟩ : ∃ f, fuel = f + 1 :=
      ⟨fuel - 1, by simp at hf; omega⟩
    rw [encRecs]
    simp only [List.append_assoc]
    rw [shbReadOptions_step q opt hwf hnz hp]
    obtain ⟨opts, hrec⟩ :=
      ih f s (acc ++ [opt]) (fun p hps => hg p (by simp [hps]))
        (by simp at hf; omega)
    refine ⟨opt :: opts, ?_⟩
    rw [hrec]
    congr 1
    · simp [Nat.succ_sub_succ]
    · simp

/-- Traversing a sequence of accepted records advances the Interface
Description option loop past their encoding. -/
theorem idbReadOptions_chain (qs : List OptRec) :
    ∀ (fuel : Nat) (s : List Nat) (acc : List InterfaceDescriptionOption),
      (∀ q ∈ qs, GoodIDRec q) → qs.length ≤ fuel →
      ∃ opts, idbReadOptions fuel (encRecs qs ++ s) acc
        = idbReadOptions (fuel - qs.length) s (acc ++ opts) := by
  induction qs with
  | nil =>
    intro fuel s acc _ _
    exact ⟨[], by simp [encRecs]⟩
  | cons q qs ih =>
    intro fuel s acc hg hf
    have hgq := hg q (by simp)
    rw [GoodIDRec] at hgq
    obtain ⟨hwf, hnz, opt, hp⟩ := hgq
    obtain ⟨f, rfl⟩ : ∃ f, fuel = f + 1 :=
      ⟨fuel - 1, by simp at hf; omega⟩
    rw [encRecs]
    simp only [List.append_assoc]
    rw [idbReadOptions_step q opt hwf hnz hp]
    obtain ⟨opts, hrec⟩ :=
      ih f s (acc ++ [opt]) (fun p hps => hg p (by simp [hps]))
        (by simp at hf; omega)
    refine ⟨opt :: opts, ?_⟩
    rw [hrec]
    congr 1
    · simp [Nat.succ_sub_succ]
    · simp

/-- The Interface Description dispatch rejects any code outside its
known set with the unknown-option format error. -/
theorem idbParseOption_unknown (code : Nat) (data : List Nat)
    (h : code ∉ ([1, 2, 3, 4, 6, 9, 12] : List Nat)) :
    idbParseOption code data = .err (.formatError .unknownOption) := by
  simp only [List.mem_cons, List.mem_singleton] at h
  push_neg at h
  rw [idbParseOption, if_neg (by omega), if_neg (by omega),
    if_neg (by omega), if_neg (by omega)]

/-- The Section Header dispatch maps a string option whose bytes are
not valid UTF-8 to the text-encoding format error. -/
theorem shbParseOption_utf8_fail (code : Nat) (data : List Nat)
    (h1 : 1 ≤ code) (h4 : code ≤ 4) (hv : validUtf8 data = false) :
    shbParseOption code data = .err (.formatError .utf8Error) := by
  rw [shbParseOption, if_pos ⟨h1, h4⟩]
  simp [hv]

/-- A successful run of the Section Header option loop certifies that
its input stream is a chain of nonzero-code records ended by a code-0
terminator record, and that the returned options extend the
accumulator by exactly the dispatched values of those records. -/
theorem shbReadOptions_ok_chain :
    ∀ (fuel : Nat) (s : List Nat) (acc res : List SectionHeaderOption),
      shbReadOptions fuel s acc = .ok res →
      ∃ opts, SHChain s opts ∧ res = acc ++ opts := by
  intro fuel
  induction fuel with
  | zero =>
    intro s acc res h
    simp [shbReadOptions] at h
  | succ f ih =>
    intro s acc res h
    rw [shbReadOptions] at h
    split at h
    case h_2 => simp at h
    case h_3 => simp at h
    case h_4 => simp at h
    case h_1 c data s₁ hro =>
      split at h
      case isTrue hc =>
        subst hc
        simp only [Res.ok.injEq] at h
        obtain ⟨b0, b1, b2, b3, w, hs, hcv, hwl, _⟩ := read_option_ok_inv hro
        refine ⟨[], ?_, by simp [h]⟩
        rw [hs]
        exact SHChain.term b0 b1 b2 b3 w s₁ hcv.symm hwl
      case isFalse hc =>
        split at h
        case h_2 => simp at h
        case h_3 => simp at h
        case h_4 => simp at h
        case h_1 opt hp =>
          obtain ⟨opts, hchain, hres⟩ := ih s₁ (acc ++ [opt]) res h
          obtain ⟨b0, b1, b2, b3, w, hs, hcv, hwl, hd⟩ := read_option_ok_inv hro
          refine ⟨opt :: opts, ?_, by simp [hres]⟩
          rw [hs]
          refine SHChain.step b0 b1 b2 b3 w s₁ opt opts
            (by rw [← hcv]; exact hc) hwl ?_ hchain
          rw [← hcv, ← hd]
          exact hp

/-- When the next record's dispatch fails, the Section Header option
loop fails with that error. -/
theorem shbReadOptions_err_head (q : OptRec) (hq : WfRec q)
    (hnz : q.code ≠ 0) (e : Error)
    (hpe : shbParseOption q.code (q.wire.take q.len) = .err e)
    (fuel : Nat) (s : List Nat) (acc : List SectionHeaderOption) :
    shbReadOptions (fuel + 1) (encRec q ++ s) acc = .err e := by
  rw [shbReadOptions, read_option_encRec q hq]
  simp only [if_neg hnz, hpe]

/-- When the next record's dispatch fails, the Interface Description
option loop fails with that error. -/
theorem idbReadOptions_err_head (q : OptRec) (hq : WfRec q)
    (hnz : q.code ≠ 0) (e : Error)
    (hpe : idbParseOption q.code (q.wire.take q.len) = .err e)
    (fuel : Nat) (s : List Nat) (acc : List InterfaceDescriptionOption) :
    idbReadOptions (fuel + 1) (encRec q ++ s) acc = .err e := by
  rw [idbReadOptions, read_option_encRec q hq]
  simp only [if_neg hnz, hpe]

/-- C6 (counterexample): at the top of the `uint` range the addition
in `dword_aligned` wraps, so the claimed bound `n < align4 n < n + 4`
for `n` not a multiple of 4 fails: `dword_aligned (2 ^ 64 - 1) = 0`. -/
theorem dword_aligned_wrap_counterexample :
    (2 ^ 64 - 1) % 4 ≠ 0 ∧ dword_aligned (2 ^ 64 - 1) = 0 ∧
      ¬(2 ^ 64 - 1 < dword_aligned (2 ^ 64 - 1)) := by decide

/-- C6 (amended): for every `n` for which `n + 3` does not overflow
the 64-bit `uint` (`n + 3 < 2 ^ 64`), `dword_aligned` returns the
smallest multiple of 4 that is at least `n`: it is the identity on
multiples of 4, strictly between `n` and `n + 4` otherwise, always a
multiple of 4 at least `n`, and idempotent. -/
theorem dword_aligned_spec (n : Nat) (h : n + 3 < 2 ^ 64) :
    (n % 4 = 0 → dword_aligned n = n) ∧
    (n % 4 ≠ 0 → n < dword_aligned n ∧ dword_aligned n < n + 4) ∧
    dword_aligned (dword_aligned n) = dword_aligned n ∧
    dword_aligned n % 4 = 0 ∧ n ≤ dword_aligned n := by
  have h1 := dword_aligned_eq n h
  have h2 : dword_aligned n + 3 < 2 ^ 64 := by rw [h1]; omega
  have h3 := dword_aligned_eq _ h2
  refine ⟨fun hm => by rw [h1]; omega,
    fun hm => by rw [h1]; constructor <;> omega,
    by rw [h3, h1]; omega,
    by rw [h1]; omega,
    by rw [h1]; omega⟩

/-- C6 witness: the amended claim evaluated at `n = 5`
(`dword_aligned 5 = 8`). -/
theorem dword_aligned_spec_witness :
    5 + 3 < 2 ^ 64 ∧
    ((5 % 4 = 0 → dword_aligned 5 = 5) ∧
     (5 % 4 ≠ 0 → 5 < dword_aligned 5 ∧ dword_aligned 5 < 5 + 4) ∧
     dword_aligned (dword_aligned 5) = dword_aligned 5 ∧
     dword_aligned 5 % 4 = 0 ∧ 5 ≤ dword_aligned 5) :=
  ⟨by norm_num, dword_aligned_spec 5 (by norm_num)⟩

/-- C7: for every option record whose declared length is not a
multiple of 4, `read_option` consumes the padded `dword_aligned len`
value bytes (the remaining stream is exactly what follows them) while
the returned value is exactly the first `len` bytes. -/
theorem read_option_padded_consumption (code len : Nat) (w rest : List Nat)
    (hc : code < 2 ^ 16) (hl : len < 2 ^ 16) (hmod : len % 4 ≠ 0)
    (hw : w.length = dword_aligned len) :
    read_option (u16le code ++ u16le len ++ w ++ rest)
      = .ok ((code, w.take len), rest) ∧ (w.take len).length = len := by
  constructor
  · have hro := read_option_encRec ⟨code, len, w⟩ ⟨hc, hl, hw⟩ rest
    simpa [encRec, List.append_assoc] using hro
  · rw [List.length_take, hw, dword_aligned_eq len (by omega)]
    omega

/-- C7 witness: a record with code 1, declared length 1 and padded
4-byte value decodes to its single logical byte, leaving the stream
positioned after the padding. -/
theorem read_option_padded_consumption_witness :
    (1 < 2 ^ 16 ∧ 1 % 4 ≠ 0 ∧
      ([7, 8, 9, 10] : List Nat).length = dword_aligned 1) ∧
    (read_option (u16le 1 ++ u16le 1 ++ [7, 8, 9, 10] ++ [42])
      = .ok ((1, ([7, 8, 9, 10] : List Nat).take 1), [42]) ∧
     (([7, 8, 9, 10] : List Nat).take 1).length = 1) :=
  ⟨⟨by norm_num, by norm_num, by decide⟩,
    read_option_padded_consumption 1 1 [7, 8, 9, 10] [42]
      (by norm_num) (by norm_num) (by norm_num) (by decide)⟩

/-- C1 (code evaluated at the failing input): a block whose trailing
length field (17) differs from its leading total length (16) makes
`read_block` hit the `assert!` and abort instead of returning an
error value. -/
theorem read_block_trailing_mismatch_aborts :
    read_block [0, 0, 0, 0, 16, 0, 0, 0, 1, 2, 3, 4, 17, 0, 0, 0]
      = .abort "assertion failed" := by decide

/-- C2: whenever the first four bytes decode (little-endian) to a
magic value other than `0x1A2B3C4D`, `SectionHeaderBlock.read` fails
with the unsupported-endianness condition instead of accepting the
block. -/
theorem shb_read_bad_magic_rejected (s : List Nat) (m : Nat) (s₁ : List Nat)
    (h32 : read_le_u32 s = .ok (m, s₁)) (hm : m ≠ 0x1A2B3C4D) :
    SectionHeaderBlock.read s = .abort "unsupported endianness" := by
  rw [SectionHeaderBlock.read, h32]
  simp only [Res.bind]
  rw [if_neg hm]

/-- C2 witness: an input whose magic field reads as `0x4D3C2B1A`
(byte-swapped magic) is rejected. -/
theorem shb_read_bad_magic_rejected_witness :
    read_le_u32 [0x1A, 0x2B, 0x3C, 0x4D] = .ok (0x4D3C2B1A, []) ∧
    (0x4D3C2B1A : Nat) ≠ 0x1A2B3C4D ∧
    SectionHeaderBlock.read [0x1A, 0x2B, 0x3C, 0x4D]
      = .abort "unsupported endianness" :=
  ⟨by decide, by decide,
    shb_read_bad_magic_rejected [0x1A, 0x2B, 0x3C, 0x4D] 0x4D3C2B1A []
      (by decide) (by decide)⟩

/-- C3: the hand-built Section Header payload with magic
`0x1A2B3C4D`, major version 1, minor version 0, unspecified section
length, one Comment option "test" (bytes 0x74 0x65 0x73 0x74) and the
code-0 terminator decodes to exactly those field values with exactly
one Comment option. -/
theorem shb_read_sample_decodes :
    SectionHeaderBlock.read
      [0x4D, 0x3C, 0x2B, 0x1A, 1, 0, 0, 0,
       255, 255, 255, 255, 255, 255, 255, 255,
       1, 0, 4, 0, 0x74, 0x65, 0x73, 0x74, 0, 0, 0, 0]
      = .ok { magic := 0x1A2B3C4D, major_version := 1, minor_version := 0,
              section_length := 0xFFFFFFFFFFFFFFFF,
              options := [.comment [0x74, 0x65, 0x73, 0x74]] } := by decide

/-- C8 (counterexample): a block whose `total_length` (14) is not a
multiple of 4 decodes successfully while consuming 16 bytes (the
17-byte input minus the 1 leftover byte), so a successful `read_block`
does not always consume exactly `total_length` bytes. -/
theorem read_block_consumption_counterexample :
    read_block [7, 0, 0, 0, 14, 0, 0, 0, 1, 2, 3, 4, 14, 0, 0, 0, 9]
      = .ok ((7, [1, 2]), [9]) ∧
    ([7, 0, 0, 0, 14, 0, 0, 0, 1, 2, 3, 4, 14, 0, 0, 0, 9] : List Nat).length
        - ([9] : List Nat).length = 16 ∧
    (16 : Nat) ≠ 14 := by decide

/-- C8 (amended): for every successful call, `read_block` consumes
exactly `12 + align4(total_length - 12)` bytes (4 type + 4 leading
length + `align4(total_length - 12)` padded payload + 4 trailing
length) — which equals `total_length` exactly when `total_length` is a
multiple of 4 — and returns a payload of exactly `total_length - 12`
bytes. -/
theorem read_block_frame_consumption (bt t : Nat) (w rest : List Nat)
    (hbt : bt < 2 ^ 32) (ht12 : 12 ≤ t) (ht : t < 2 ^ 32)
    (hw : w.length = dword_aligned (t - 12)) :
    read_block (u32le bt ++ u32le t ++ w ++ u32le t ++ rest)
      = .ok ((bt, w.take (t - 12)), rest) ∧
    (w.take (t - 12)).length = t - 12 ∧
    (u32le bt ++ u32le t ++ w ++ u32le t ++ rest).length
      = 12 + dword_aligned (t - 12) + rest.length ∧
    (t % 4 = 0 → 12 + dword_aligned (t - 12) = t) := by
  have hdl : (t + 2 ^ 32 - 12) % 2 ^ 32 = t - 12 := by omega
  refine ⟨?_, ?_, ?_, ?_⟩
  · rw [read_block]
    simp only [List.append_assoc]
    rw [read_le_u32_enc bt hbt, Res.bind]
    rw [read_le_u32_enc t ht, Res.bind]
    rw [hdl, ← hw, read_exact_prefix, Res.bind]
    rw [read_le_u32_enc t ht, Res.bind]
    exact if_pos rfl
  · rw [List.length_take, hw, dword_aligned_eq (t - 12) (by omega)]
    omega
  · simp only [List.length_append, u32le, List.length_cons,
      List.length_nil, hw]
    omega
  · intro hm
    rw [dword_aligned_eq (t - 12) (by omega)]
    omega

/-- C8 witness: the amended claim at a block with
`total_length = 16`. -/
theorem read_block_frame_consumption_witness :
    read_block (u32le 0 ++ u32le 16 ++ [1, 2, 3, 4] ++ u32le 16 ++ [])
      = .ok ((0, ([1, 2, 3, 4] : List Nat).take (16 - 12)), ([] : List Nat)) ∧
    (([1, 2, 3, 4] : List Nat).take (16 - 12)).length = 16 - 12 ∧
    (u32le 0 ++ u32le 16 ++ [1, 2, 3, 4] ++ u32le 16
        ++ ([] : List Nat)).length
      = 12 + dword_aligned (16 - 12) + ([] : List Nat).length ∧
    (16 % 4 = 0 → 12 + dword_aligned (16 - 12) = 16) :=
  read_block_frame_consumption 0 16 [1, 2, 3, 4] []
    (by norm_num) (by norm_num) (by norm_num) (by decide)

/-- C10: `read_block` never checks that `total_length` is at least 12.
For a header whose `total_length` field is below 12 the payload size
wraps modulo `2 ^ 32`, so the framer attempts to read
`align4((total_length - 12) mod 2 ^ 32)` bytes — at least
`2 ^ 32 - 12` — and, on any stream shorter than that, reports a short
read instead of rejecting the header as malformed. -/
theorem read_block_no_short_length_validation (bt t : Nat) (rest : List Nat)
    (hbt : bt < 2 ^ 32) (ht : t < 12)
    (hrest : rest.length < dword_aligned ((t + 2 ^ 32 - 12) % 2 ^ 32)) :
    read_block (u32le bt ++ u32le t ++ rest) = .err .ioError ∧
    2 ^ 32 - 12 ≤ dword_aligned ((t + 2 ^ 32 - 12) % 2 ^ 32) := by
  have hdl : (t + 2 ^ 32 - 12) % 2 ^ 32 = t + 2 ^ 32 - 12 := by omega
  constructor
  · rw [read_block]
    simp only [List.append_assoc]
    rw [read_le_u32_enc bt hbt, Res.bind]
    rw [read_le_u32_enc t (by omega), Res.bind]
    rw [read_exact_short _ _ hrest, Res.bind]
  · rw [hdl, dword_aligned_eq _ (by omega)]
    omega

/-- C10 witness: a bare 8-byte header with `total_length = 0` on an
otherwise empty stream. -/
theorem read_block_no_short_length_validation_witness :
    (0 < 2 ^ 32 ∧ 0 < 12 ∧
      ([] : List Nat).length < dword_aligned ((0 + 2 ^ 32 - 12) % 2 ^ 32)) ∧
    (read_block (u32le 0 ++ u32le 0 ++ []) = .err .ioError ∧
     2 ^ 32 - 12 ≤ dword_aligned ((0 + 2 ^ 32 - 12) % 2 ^ 32)) :=
  ⟨⟨by norm_num, by norm_num, by decide⟩,
    read_block_no_short_length_validation 0 0 []
      (by norm_num) (by norm_num) (by decide)⟩

/-- C4: an Interface Description block whose option chain consists of
any sequence of accepted records followed by a record whose code is
outside the known set (1, 2, 3, 4, 6, 9, 12) fails to decode with the
unknown-option format error — no block value is returned. -/
theorem idb_unknown_option_fails
    (lt rsv sl : Nat) (qs : List OptRec) (code len : Nat)
    (w rest : List Nat)
    (hlt : lt < 2 ^ 16) (hrsv : rsv < 2 ^ 16) (hsl : sl < 2 ^ 32)
    (hg : ∀ q ∈ qs, GoodIDRec q)
    (hc : code < 2 ^ 16) (hnz : code ≠ 0)
    (hunk : code ∉ ([1, 2, 3, 4, 6, 9, 12] : List Nat))
    (hl : len < 2 ^ 16) (hw : w.length = dword_aligned len) :
    InterfaceDescriptionBlock.read
      (u16le lt ++ u16le rsv ++ u32le sl ++ encRecs qs
        ++ (u16le code ++ u16le len ++ w) ++ rest)
      = .err (.formatError .unknownOption) := by
  have hperr : idbParseOption code (w.take len)
      = .err (.formatError .unknownOption) :=
    idbParseOption_unknown code (w.take len) hunk
  rw [InterfaceDescriptionBlock.read]
  simp only [List.append_assoc]
  rw [read_le_u16_enc lt hlt, Res.bind]
  rw [read_le_u16_enc rsv hrsv, Res.bind]
  rw [read_le_u32_enc sl hsl, Res.bind]
  have hne : encRecs qs ++ (u16le code ++ (u16le len ++ (w ++ rest)))
      ≠ [] := by simp [u16le]
  rw [if_neg hne]
  obtain ⟨opts, hrec⟩ :=
    idbReadOptions_chain qs
      ((encRecs qs ++ (u16le code ++ (u16le len ++ (w ++ rest)))).length + 1)
      (u16le code ++ (u16le len ++ (w ++ rest))) [] hg
      (by have := encRecs_length_ge qs
          simp only [List.length_append]
          omega)
  rw [hrec]
  obtain ⟨f, hf⟩ : ∃ f,
      (encRecs qs ++ (u16le code ++ (u16le len ++ (w ++ rest)))).length + 1
        - qs.length = f + 1 :=
    ⟨(encRecs qs ++ (u16le code ++ (u16le len ++ (w ++ rest)))).length
        - qs.length,
      by have := encRecs_length_ge qs
         simp only [List.length_append]
         omega⟩
  rw [hf]
  rw [show u16le code ++ (u16le len ++ (w ++ rest))
      = encRec ⟨code, len, w⟩ ++ rest from by
    simp [encRec, List.append_assoc]]
  rw [idbReadOptions_err_head ⟨code, len, w⟩ ⟨hc, hl, hw⟩ hnz
    (.formatError .unknownOption) hperr f rest ([] ++ opts), Res.bind]

/-- C4 witness: an Interface Description block carrying the single
unknown option code 99 is rejected with the unknown-option error. -/
theorem idb_unknown_option_fails_witness :
    (99 : Nat) ∉ ([1, 2, 3, 4, 6, 9, 12] : List Nat) ∧
    InterfaceDescriptionBlock.read
      (u16le 1 ++ u16le 0 ++ u32le 0 ++ encRecs []
        ++ (u16le 99 ++ u16le 0 ++ ([] : List Nat)) ++ ([] : List Nat))
      = .err (.formatError .unknownOption) :=
  ⟨by decide,
    idb_unknown_option_fails 1 0 0 [] 99 0 [] []
      (by norm_num) (by norm_num) (by norm_num)
      (fun q hq => absurd hq (List.not_mem_nil q))
      (by norm_num) (by norm_num) (by decide) (by norm_num) (by decide)⟩

/-- C9: a Section Header block whose option chain consists of any
sequence of accepted records followed by a string-typed option record
(code 1-4) whose value bytes are not valid UTF-8 fails to decode with
the text-encoding error `FormatError.utf8Error`, a variant distinct
from `FormatError.unknownOption`. -/
theorem shb_invalid_utf8_distinct_error
    (maj minv sl : Nat) (qs : List OptRec) (code len : Nat)
    (w rest : List Nat)
    (hmaj : maj < 2 ^ 16) (hmin : minv < 2 ^ 16) (hsl : sl < 2 ^ 64)
    (hg : ∀ q ∈ qs, GoodSHRec q)
    (h1 : 1 ≤ code) (h4 : code ≤ 4)
    (hl : len < 2 ^ 16) (hw : w.length = dword_aligned len)
    (hv : validUtf8 (w.take len) = false) :
    SectionHeaderBlock.read
      (u32le 0x1A2B3C4D ++ u16le maj ++ u16le minv ++ u64le sl
        ++ encRecs qs ++ (u16le code ++ u16le len ++ w) ++ rest)
      = .err (.formatError .utf8Error) ∧
    FormatError.utf8Error ≠ FormatError.unknownOption := by
  refine ⟨?_, by decide⟩
  have hperr : shbParseOption code (w.take len)
      = .err (.formatError .utf8Error) :=
    shbParseOption_utf8_fail code (w.take len) h1 h4 hv
  rw [SectionHeaderBlock.read]
  simp only [List.append_assoc]
  rw [read_le_u32_enc 0x1A2B3C4D (by norm_num), Res.bind]
  rw [if_pos rfl]
  rw [read_le_u16_enc maj hmaj, Res.bind]
  rw [read_le_u16_enc minv hmin, Res.bind]
  rw [read_le_u64_enc sl hsl, Res.bind]
  have hne : encRecs qs ++ (u16le code ++ (u16le len ++ (w ++ rest)))
      ≠ [] := by simp [u16le]
  rw [if_neg hne]
  obtain ⟨opts, hrec⟩ :=
    shbReadOptions_chain qs
      ((encRecs qs ++ (u16le code ++ (u16le len ++ (w ++ rest)))).length + 1)
      (u16le code ++ (u16le len ++ (w ++ rest))) [] hg
      (by have := encRecs_length_ge qs
          simp only [List.length_append]
          omega)
  rw [hrec]
  obtain ⟨f, hf⟩ : ∃ f,
      (encRecs qs ++ (u16le code ++ (u16le len ++ (w ++ rest)))).length + 1
        - qs.length = f + 1 :=
    ⟨(encRecs qs ++ (u16le code ++ (u16le len ++ (w ++ rest)))).length
        - qs.length,
      by have := encRecs_length_ge qs
         simp only [List.length_append]
         omega⟩
  rw [hf]
  rw [show u16le code ++ (u16le len ++ (w ++ rest))
      = encRec ⟨code, len, w⟩ ++ rest from by
    simp [encRec, List.append_assoc]]
  rw [shbReadOptions_err_head ⟨code, len, w⟩
    ⟨show code < 2 ^ 16 by omega, hl, hw⟩
    (show code ≠ 0 by omega) (.formatError .utf8Error)
    hperr f rest ([] ++ opts), Res.bind]

/-- C9 witness: a Comment option (code 1) whose single value byte 0xFF
is not valid UTF-8 makes the block decode fail with the text-encoding
error. -/
theorem shb_invalid_utf8_distinct_error_witness :
    validUtf8 (([255, 0, 0, 0] : List Nat).take 1) = false ∧
    (SectionHeaderBlock.read
      (u32le 0x1A2B3C4D ++ u16le 1 ++ u16le 0 ++ u64le 0
        ++ encRecs [] ++ (u16le 1 ++ u16le 1 ++ [255, 0, 0, 0])
        ++ ([] : List Nat))
      = .err (.formatError .utf8Error) ∧
     FormatError.utf8Error ≠ FormatError.unknownOption) :=
  ⟨by decide,
    shb_invalid_utf8_distinct_error 1 0 0 [] 1 1 [255, 0, 0, 0] []
      (by norm_num) (by norm_num) (by norm_num)
      (fun q hq => absurd hq (List.not_mem_nil q))
      (by norm_num) (by norm_num) (by norm_num) (by decide) (by decide)⟩

/-- C5: for every successfully decoded Section Header block, the
option loop terminated exactly at a code-0 terminator record or at an
already-exhausted option area (the 16 fixed-field bytes consumed the
whole payload), and the terminator is never emitted: the returned
options are exactly the dispatched nonzero-code records preceding the
terminator. -/
theorem shb_options_terminator_exact (s : List Nat)
    (blk : SectionHeaderBlock)
    (h : SectionHeaderBlock.read s = .ok blk) :
    (s.drop 16 = [] ∧ blk.options = []) ∨
      SHChain (s.drop 16) blk.options := by
  rw [SectionHeaderBlock.read] at h
  cases h32 : read_le_u32 s with
  | ok p =>
    obtain ⟨m, s₁⟩ := p
    rw [h32] at h
    simp only [Res.bind] at h
    by_cases hm : m = 0x1A2B3C4D
    · rw [if_pos hm] at h
      cases h16a : read_le_u16 s₁ with
      | ok p2 =>
        obtain ⟨maj, s₂⟩ := p2
        rw [h16a] at h
        simp only [Res.bind] at h
        cases h16b : read_le_u16 s₂ with
        | ok p3 =>
          obtain ⟨minv, s₃⟩ := p3
          rw [h16b] at h
          simp only [Res.bind] at h
          cases h64 : read_le_u64 s₃ with
          | ok p4 =>
            obtain ⟨sl, s₄⟩ := p4
            rw [h64] at h
            simp only [Res.bind] at h
            have hs4 : s₄ = s.drop 16 := by
              rw [read_le_u64_ok_drop h64, read_le_u16_ok_drop h16b,
                read_le_u16_ok_drop h16a, read_le_u32_ok_drop h32]
              simp [List.drop_drop]
            by_cases he : s₄ = []
            · rw [if_pos he] at h
              simp only [Res.bind] at h
              left
              refine ⟨by rw [← hs4]; exact he, ?_⟩
              injection h with h'
              rw [← h']
            · rw [if_neg he] at h
              cases hloop : shbReadOptions (s₄.length + 1) s₄ [] with
              | ok opts =>
                rw [hloop] at h
                simp only [Res.bind] at h
                right
                obtain ⟨opts', hchain, hres⟩ :=
                  shbReadOptions_ok_chain (s₄.length + 1) s₄ [] opts hloop
                have hopt : blk.options = opts := by
                  injection h with h'
                  rw [← h']
                rw [← hs4, hopt, hres]
                simpa using hchain
              | err e => rw [hloop] at h; simp [Res.bind] at h
              | abort m2 => rw [hloop] at h; simp [Res.bind] at h
              | outOfFuel => rw [hloop] at h; simp [Res.bind] at h
          | err e => rw [h64] at h; simp [Res.bind] at h
          | abort m2 => rw [h64] at h; simp [Res.bind] at h
          | outOfFuel => rw [h64] at h; simp [Res.bind] at h
        | err e => rw [h16b] at h; simp [Res.bind] at h
        | abort m2 => rw [h16b] at h; simp [Res.bind] at h
        | outOfFuel => rw [h16b] at h; simp [Res.bind] at h
      | err e => rw [h16a] at h; simp [Res.bind] at h
      | abort m2 => rw [h16a] at h; simp [Res.bind] at h
      | outOfFuel => rw [h16a] at h; simp [Res.bind] at h
    · rw [if_neg hm] at h
      simp at h
  | err e => rw [h32] at h; simp [Res.bind] at h
  | abort m2 => rw [h32] at h; simp [Res.bind] at h
  | outOfFuel => rw [h32] at h; simp [Res.bind] at h

/-- C5 witness: a Section Header block with one Comment option and a
terminator; the theorem certifies its option area forms a properly
terminated chain producing exactly that option. -/
theorem shb_options_terminator_exact_witness :
    SectionHeaderBlock.read
      [0x4D, 0x3C, 0x2B, 0x1A, 1, 0, 0, 0,
       255, 255, 255, 255, 255, 255, 255, 255,
       1, 0, 4, 0, 97, 98, 99, 100, 0, 0, 0, 0]
      = .ok { magic := 0x1A2B3C4D, major_version := 1, minor_version := 0,
              section_length := 0xFFFFFFFFFFFFFFFF,
              options := [.comment [97, 98, 99, 100]] } ∧
    ((([0x4D, 0x3C, 0x2B, 0x1A, 1, 0, 0, 0,
        255, 255, 255, 255, 255, 255, 255, 255,
        1, 0, 4, 0, 97, 98, 99, 100, 0, 0, 0, 0] : List Nat).drop 16 = []
        ∧ ({ magic := 0x1A2B3C4D, major_version := 1, minor_version := 0,
             section_length := 0xFFFFFFFFFFFFFFFF,
             options := [.comment [97, 98, 99, 100]] }
            : SectionHeaderBlock).options = []) ∨
      SHChain
        (([0x4D, 0x3C, 0x2B, 0x1A, 1, 0, 0, 0,
           255, 255, 255, 255, 255, 255, 255, 255,
           1, 0, 4, 0, 97, 98, 99, 100, 0, 0, 0, 0] : List Nat).drop 16)
        ({ magic := 0x1A2B3C4D, major_version := 1, minor_version := 0,
           section_length := 0xFFFFFFFFFFFFFFFF,
           options := [.comment [97, 98, 99, 100]] }
          : SectionHeaderBlock).options) :=
  ⟨by decide,
    shb_options_terminator_exact
      [0x4D, 0x3C, 0x2B, 0x1A, 1, 0, 0, 0,
       255, 255, 255, 255, 255, 255, 255, 255,
       1, 0, 4, 0, 97, 98, 99, 100, 0, 0, 0, 0]
      { magic := 0x1A2B3C4D, major_version := 1, minor_version := 0,
        section_length := 0xFFFFFFFFFFFFFFFF,
        options := [.comment [97, 98, 99, 100]] }
      (by decide)⟩
